import Mathlib

/-!
# HopeShot news pipeline — verification of the specification against the code

Shallow embedding of the multi-source aggregation, deduplication and
rate-limited multi-prompt analysis pipeline of the HopeShot backend
(`backend/services/*.py`), together with theorems settling the frozen
claims about it.

Conventions:
* Python dicts parsed from JSON are modelled by the inductive `JVal`;
  Python `None`/falsiness is modelled by `JVal.truthy`.
* Machine floats that only ever hold exact decimal constants
  (similarity ratios, emotion scores) are modelled by `ℚ`.
* The sqlite database is the persistence boundary: a lookup-table
  snapshot (a list of rows, or a lookup function) is passed explicitly.
-/

namespace HopeShot

/-- Python `str.lower()` restricted to the ASCII range (titles compared by
the deduplicator). Mirrors `title.lower()`. -/
def pyLower (s : String) : String := String.mk (s.data.map Char.toLower)

/-- Python `str.strip()`: drop leading and trailing whitespace. -/
def pyStrip (s : String) : String :=
  String.mk (((s.data.dropWhile Char.isWhitespace).reverse.dropWhile
    Char.isWhitespace).reverse)

/-- Accumulator loop for `str.split()`: `acc` holds the characters of the
current token in reverse. -/
def splitWSAux : List Char → List Char → List String
  | [], acc => if acc.isEmpty then [] else [String.mk acc.reverse]
  | c :: cs, acc =>
    if c.isWhitespace then
      if acc.isEmpty then splitWSAux cs []
      else String.mk acc.reverse :: splitWSAux cs []
    else splitWSAux cs (c :: acc)

/-- Python `str.split()` with no argument: split on runs of whitespace,
discarding empty pieces. -/
def splitWS (s : String) : List String := splitWSAux s.data []

/-- The whitespace-token set of a string, as used by
`news_service._remove_cross_source_duplicates` (`set(title.split())`). -/
def tokenSet (s : String) : Finset String := (splitWS s).toFinset

/-- Executable form of rational subtraction: `qSub a b = a - b`
(see `qSub_eq`); written through `mkRat` so the kernel can evaluate it. -/
def qSub (a b : ℚ) : ℚ := mkRat (a.num * b.den - b.num * a.den) (a.den * b.den)

/-- Executable form of rational addition: `qAdd a b = a + b`
(see `qAdd_eq`). -/
def qAdd (a b : ℚ) : ℚ := mkRat (a.num * b.den + b.num * a.den) (a.den * b.den)

/-- Modelled from the spec: token-overlap similarity, the
"intersection-over-union of the lower-cased whitespace-token sets of two
titles" (GLOSSARY).  This is the metric the claims are stated in; the
code's own metrics are embedded separately below.  The exact quotient
`card (A ∩ B) / card (A ∪ B)` is written through `mkRat`. -/
def specTokenOverlapIoU (t₁ t₂ : String) : ℚ :=
  let A := tokenSet (pyLower (pyStrip t₁))
  let B := tokenSet (pyLower (pyStrip t₂))
  if (A ∪ B).card = 0 then 0 else mkRat ((A ∩ B).card) ((A ∪ B).card)

/-- A normalized article as handled by the orchestrator: only the fields the
deduplication paths read are named; `tag` stands for all the pass-through
payload fields of the Python dict. -/
structure Article where
  title : String
  url : String
  tag : Nat := 0
  deriving Repr, DecidableEq

/-- One step of the duplicate test in
`news_service._remove_cross_source_duplicates`: the candidate token set
against one already-seen title.  Mirrors
`if title_words and seen_words: similarity = overlap / max(...); similarity > 0.7`. -/
def wbSimilar (titleWords : Finset String) (seenTitle : String) : Bool :=
  let seenWords := tokenSet seenTitle
  if titleWords.card ≠ 0 ∧ seenWords.card ≠ 0 then
    decide (mkRat ((titleWords ∩ seenWords).card)
      (max titleWords.card seenWords.card) > mkRat 7 10)
  else
    false

/-- Loop of `news_service._remove_cross_source_duplicates`, with the
`seen_titles` set threaded explicitly (the Python set is only ever used for
an existence test, so a list is a faithful model). -/
def removeCSDAux : List Article → List String → List Article
  | [], _ => []
  | a :: rest, seen =>
    let title := pyLower (pyStrip a.title)
    let titleWords := tokenSet title
    let isDup := seen.any (fun s => wbSimilar titleWords s)
    if ¬ isDup ∧ title ≠ "" then
      a :: removeCSDAux rest (title :: seen)
    else
      removeCSDAux rest seen

/-- `news_service._remove_cross_source_duplicates`: within-batch,
cross-source duplicate removal. -/
def removeCrossSourceDuplicates (articles : List Article) : List Article :=
  removeCSDAux articles []

/-! ## `difflib.SequenceMatcher` (character-level), as used by
`deduplication_service._check_title_similarity`.

The titles compared are far shorter than the 200-character autojunk cutoff
and no junk predicate is passed, so the matcher runs junk-free: the longest
matching block is the longest common contiguous run, ties broken by lowest
start in the first string, then lowest start in the second. -/

/-- Length of the common prefix of two character lists. -/
def commonPrefixLen : List Char → List Char → Nat
  | a :: as, b :: bs => if a = b then commonPrefixLen as bs + 1 else 0
  | _, _ => 0

/-- Length of the matching run starting at positions `i` of `a` and `j` of `b`. -/
def matchLenAt (a b : List Char) (i j : Nat) : Nat :=
  commonPrefixLen (a.drop i) (b.drop j)

/-- `SequenceMatcher.find_longest_match` over the whole strings (junk-free):
the `(i, j, k)` with maximal run length `k`, ties broken by smaller `i`,
then smaller `j`; `(0, 0, 0)` when nothing matches. -/
def findLongestMatch (a b : List Char) : Nat × Nat × Nat :=
  (List.range a.length).foldl (fun best i =>
    (List.range b.length).foldl (fun best j =>
      let k := matchLenAt a b i j
      if k > best.2.2 then (i, j, k) else best) best) (0, 0, 0)

/-- Fuel-indexed total sum of `SequenceMatcher.get_matching_blocks` sizes:
take the longest matching block, recurse on the pieces left and right of it.
`a.length + b.length` fuel always suffices (each recursive call strictly
shrinks the combined length, see `matchingTotalF_fuel`). -/
def matchingTotalF : Nat → List Char → List Char → Nat
  | 0, _, _ => 0
  | fuel + 1, a, b =>
    let m := findLongestMatch a b
    if m.2.2 = 0 then 0
    else
      matchingTotalF fuel (a.take m.1) (b.take m.2.1) + m.2.2 +
        matchingTotalF fuel (a.drop (m.1 + m.2.2)) (b.drop (m.2.1 + m.2.2))

/-- Total size of all matching blocks of the junk-free `SequenceMatcher`. -/
def matchingTotal (a b : List Char) : Nat :=
  matchingTotalF (a.length + b.length) a b

/-- `SequenceMatcher.ratio()`: `2*M / T` where `M` is the total matched
size and `T` the combined length; `1` when both strings are empty.  The
exact quotient is written through `mkRat`. -/
def seqRatio (s t : String) : ℚ :=
  let a := s.toList
  let b := t.toList
  if a.length + b.length = 0 then 1
  else mkRat (2 * matchingTotal a b) (a.length + b.length)

/-! ## `deduplication_service.DeduplicationService` (cross-run check) -/

/-- A persisted row of the `articles` table, restricted to the columns the
deduplication service reads (`url_id`, `title`). -/
structure StoredArticle where
  url_id : String
  title : String
  deriving Repr, DecidableEq

/-- `_check_url_duplicate`: `SELECT 1 FROM articles WHERE url_id = ?` —
exact string equality against the stored `url_id` column. -/
def checkUrlDuplicate (url : String) (store : List StoredArticle) : Bool :=
  store.any (fun r => r.url_id = url)

/-- `title_similarity_threshold = 0.8` from `DeduplicationService.__init__`. -/
def titleSimilarityThreshold : ℚ := mkRat 8 10

/-- `_check_title_similarity`: some stored title has
`SequenceMatcher(None, title.lower(), existing.lower()).ratio()` at or above
the threshold. -/
def checkTitleSimilarity (title : String) (store : List StoredArticle) : Bool :=
  store.any (fun r =>
    decide (seqRatio (pyLower title) (pyLower r.title) ≥ titleSimilarityThreshold))

/-- `DeduplicationService.is_duplicate`: empty/missing url or title pass
through; else exact-URL check, then title-similarity check. -/
def isDuplicate (article : Article) (store : List StoredArticle) :
    Bool × Option String :=
  if article.url = "" ∨ article.title = "" then (false, none)
  else if checkUrlDuplicate article.url store then (true, some "URL match")
  else if checkTitleSimilarity article.title store then (true, some "Title similarity")
  else (false, none)

/-! ## `gemini_service.GeminiService` — rate limiter / pacer

`datetime.now()` is modelled by an explicit `Time` value carrying the three
projections the code reads: the wall-clock minute, the date (as a day
ordinal) and an absolute timestamp in seconds (so that
`(now - last_request_time).total_seconds()` is a subtraction of
timestamps). -/

/-- The projections of `datetime.now()` that the rate limiter reads. -/
structure Time where
  minute : Nat
  date : Nat
  absSeconds : ℚ
  deriving Repr, DecidableEq

/-- The mutable counters of `GeminiService` (`__init__`, lines 36–41);
`last_request_time` stores the absolute timestamp of the recorded call. -/
structure RateLimiterState where
  currentMinute : Nat
  requestsThisMinute : Nat
  tokensThisMinute : Nat
  dailyRequests : Nat
  lastRequestTime : Option ℚ
  lastResetDate : Nat
  deriving Repr, DecidableEq

/-- `requests_per_minute = 14`. -/
def requestsPerMinute : Nat := 14
/-- `requests_per_day = 900`. -/
def requestsPerDay : Nat := 900
/-- `tokens_per_minute = 220000`. -/
def tokensPerMinute : Nat := 220000
/-- `target_batch_interval = 120` seconds between batches. -/
def targetBatchInterval : ℚ := 120
/-- `max_articles_per_batch = 100`. -/
def maxArticlesPerBatch : Nat := 100

/-- `_reset_counters_if_needed`: lazily zero the minute counters when the
wall-clock minute changed, and the daily counter when the date advanced. -/
def resetCountersIfNeeded (st : RateLimiterState) (now : Time) : RateLimiterState :=
  let st :=
    if now.minute ≠ st.currentMinute then
      { st with currentMinute := now.minute, requestsThisMinute := 0,
                tokensThisMinute := 0 }
    else st
  if now.date > st.lastResetDate then
    { st with dailyRequests := 0, lastResetDate := now.date }
  else st

/-- The dictionary returned by `can_make_request`. -/
structure CanRequestResult where
  canProceed : Bool
  timeSinceLastRequest : Option ℚ
  secondsUntilNextAllowed : ℚ
  deriving Repr, DecidableEq

/-- `timing_ok` inside `can_make_request`: no prior request, or the pacing
interval has elapsed. -/
def timingOk (st : RateLimiterState) (now : Time) : Bool :=
  match st.lastRequestTime with
  | none => true
  | some t => decide (qSub now.absSeconds t ≥ targetBatchInterval)

/-- `requests_ok`: per-minute request cap not reached. -/
def requestsOk (st : RateLimiterState) : Bool :=
  st.requestsThisMinute < requestsPerMinute

/-- `tokens_ok`: estimated cost still fits in the per-minute token budget. -/
def tokensOk (st : RateLimiterState) (estimatedTokens : Nat) : Bool :=
  st.tokensThisMinute + estimatedTokens ≤ tokensPerMinute

/-- `daily_ok`: daily request ceiling not reached. -/
def dailyOk (st : RateLimiterState) : Bool :=
  st.dailyRequests < requestsPerDay

/-- `can_make_request(estimated_tokens)`: runs the lazy reset, then checks
the four admission predicates.  Returns the possibly-reset state together
with the result dictionary.  Note Python's `if time_since_last:` treats a
zero elapsed time like `None` when computing `seconds_until_next_allowed`. -/
def canMakeRequest (st : RateLimiterState) (now : Time) (estimatedTokens : Nat) :
    RateLimiterState × CanRequestResult :=
  let st := resetCountersIfNeeded st now
  let timeSinceLast : Option ℚ := st.lastRequestTime.map (fun t => qSub now.absSeconds t)
  let canProceed := timingOk st now && requestsOk st &&
    tokensOk st estimatedTokens && dailyOk st
  let secondsUntil : ℚ :=
    match timeSinceLast with
    | none => 0
    | some t => if t = 0 then 0 else max 0 (qSub targetBatchInterval t)
  (st, ⟨canProceed, timeSinceLast, secondsUntil⟩)

/-- `record_request(actual_tokens)`: the only mutation point after a
completed call. -/
def recordRequest (st : RateLimiterState) (actualTokens : Nat) (now : Time) :
    RateLimiterState :=
  { st with requestsThisMinute := st.requestsThisMinute + 1,
            tokensThisMinute := st.tokensThisMinute + actualTokens,
            dailyRequests := st.dailyRequests + 1,
            lastRequestTime := some now.absSeconds }

/-! ### The admission-handling step of `analyze_articles_batch`
(lines 350–366): check the limiter, sleep `seconds_until_next_allowed + 1`
when the check failed with a positive wait, then build the prompt, issue
the external call unconditionally and record its actual token usage. -/

/-- Observable events of one batch iteration of `analyze_articles_batch`. -/
inductive BatchEvent where
  | sleep (seconds : ℚ)
  | apiCall
  | record (tokens : Nat)
  deriving Repr, DecidableEq

/-- One iteration of the batch loop of `analyze_articles_batch`, reduced to
its rate-limit interaction: `now` is the clock at the admission check and
`callTime` the clock when the completed call is recorded.  Returns the
limiter state after the iteration and the trace of observable events. -/
def processBatchStep (st : RateLimiterState) (now callTime : Time)
    (estimatedTokens actualTokens : Nat) :
    RateLimiterState × List BatchEvent :=
  let checked := canMakeRequest st now estimatedTokens
  let status := checked.2
  let sleeps : List BatchEvent :=
    if ¬ status.canProceed ∧ status.secondsUntilNextAllowed > 0 then
      [BatchEvent.sleep (qAdd status.secondsUntilNextAllowed 1)]
    else []
  (recordRequest checked.1 actualTokens callTime,
   sleeps ++ [BatchEvent.apiCall, BatchEvent.record actualTokens])

/-! ## JSON values

`json.loads` produces nested dicts/lists/strings/numbers; `JVal` models the
parsed value.  JSON numbers are modelled by `ℚ` (every literal the scorer
handles is an exact decimal). -/

/-- A parsed JSON value (Python object produced by `json.loads`). -/
inductive JVal where
  | jnull
  | jbool (b : Bool)
  | jnum (q : ℚ)
  | jstr (s : String)
  | jarr (xs : List JVal)
  | jobj (fields : List (String × JVal))
  deriving Repr

/-- Python truthiness of a parsed JSON value (`if not x`). -/
def JVal.truthy : JVal → Bool
  | .jnull => false
  | .jbool b => b
  | .jnum q => q ≠ 0
  | .jstr s => s ≠ ""
  | .jarr xs => ¬ xs.isEmpty
  | .jobj fs => ¬ fs.isEmpty

/-- A single-quote character, used by Python `repr` of strings. -/
def singleQuote : String := String.singleton (Char.ofNat 39)

/-- Python `repr` of a parsed JSON value (used by `str` on containers).
Numbers with denominator 1 render as Python ints; other rationals are an
abstraction of float repr.  String repr always uses single quotes (Python
switches quote style in corner cases; no claim depends on container
rendering). -/
def pyRepr : JVal → String
  | .jnull => "None"
  | .jbool true => "True"
  | .jbool false => "False"
  | .jnum q => if q.den = 1 then toString q.num else toString q
  | .jstr s => singleQuote ++ s ++ singleQuote
  | .jarr xs => "[" ++ String.intercalate ", " (xs.attach.map (fun x => pyRepr x.1)) ++ "]"
  | .jobj fs =>
      "\x7b" ++
        String.intercalate ", "
          (fs.attach.map (fun p =>
            singleQuote ++ p.1.1 ++ singleQuote ++ ": " ++ pyRepr p.1.2)) ++
      "\x7d"
termination_by v => sizeOf v
decreasing_by
  · have h := List.sizeOf_lt_of_mem x.2
    simp only [JVal.jarr.sizeOf_spec]
    omega
  · obtain ⟨⟨k, v⟩, hp⟩ := p
    have h := List.sizeOf_lt_of_mem hp
    simp only [Prod.mk.sizeOf_spec] at h
    simp only [JVal.jobj.sizeOf_spec]
    omega

/-- Python `str()` of a parsed JSON value: identity on strings, `repr`
otherwise. -/
def pyStr : JVal → String
  | .jstr s => s
  | v => pyRepr v

/-- First value bound to `k` in a parsed JSON object (`json.loads` keeps
keys unique, so first = only). -/
def lookupKey (fields : List (String × JVal)) (k : String) : Option JVal :=
  (fields.find? (fun p => p.1 = k)).map (fun p => p.2)

/-! ## `gemini_service._create_fallback_results` and
`gemini_service._parse_combined_response` -/

/-- One synthesized neutral record of `_create_fallback_results`. -/
def fallbackRecord (i : Nat) : JVal :=
  .jobj [
    ("article_index", .jnum i),
    ("sentiment", .jstr "neutral"),
    ("confidence_score", .jnum (1/2)),
    ("emotions", .jobj [
      ("hope", .jnum 0), ("awe", .jnum 0), ("gratitude", .jnum 0),
      ("compassion", .jnum 0), ("relief", .jnum 0), ("joy", .jnum 0)]),
    ("categories", .jarr [.jstr "unknown"]),
    ("source_credibility", .jstr "medium"),
    ("fact_checkable_claims", .jstr "unknown"),
    ("evidence_quality", .jstr "moderate"),
    ("controversy_level", .jstr "low"),
    ("solution_focused", .jstr "unknown"),
    ("age_appropriate", .jstr "all"),
    ("truth_seeking", .jstr "no"),
    ("geographical_impact_level", .jstr "Global"),
    ("geographical_impact_location", .jarr [.jstr "World"]),
    ("overall_hopefulness", .jnum 0),
    ("reasoning", .jstr "Parsing failed")]

/-- `_create_fallback_results(count)`: one neutral record per article index. -/
def createFallbackResults (count : Nat) : List JVal :=
  (List.range count).map fallbackRecord

/-- `_parse_combined_response(response_text, prompt_configs, expected_count)`
from the parse outcome onward: `parsed = none` models a
`json.JSONDecodeError` from `json.loads` on the fence-stripped text; the
result maps each active prompt key (in `prompt_configs` order) to its list
of raw analysis records.  A present key keeps its array as-is (whatever its
length), a present non-array value is wrapped in a singleton, a missing key
or an unparseable / non-object response synthesizes fallbacks. -/
def parseCombinedResponse (parsed : Option JVal) (promptKeys : List String)
    (expectedCount : Nat) : List (String × List JVal) :=
  match parsed with
  | some (.jobj fields) =>
      promptKeys.map (fun k => (k,
        match lookupKey fields k with
        | some (.jarr xs) => xs
        | some v => [v]
        | none => createFallbackResults expectedCount))
  | some _ =>
      promptKeys.map (fun k => (k, createFallbackResults expectedCount))
  | none =>
      promptKeys.map (fun k => (k, createFallbackResults expectedCount))

/-! ## `gemini_service._process_geographic_analysis` (the effective, second
definition, lines 416–474) and its helpers.

`_get_or_create_location(name, level, parent)` reads and writes the
`locations` table; the database is the persistence boundary, so it is
passed in as a snapshot function `getOrCreate : name → level → parent →
Option id` (`none` models its internal-exception path returning `None`). -/

/-- `_impact_level_to_db_level`: `mapping.get(impact_level)`; both the
explicit `Global: None` entry and an absent key yield `None`. -/
def impactLevelToDbLevel : String → Option String
  | "National" => some "country"
  | "Regional" => some "region"
  | "Local" => some "country"
  | _ => none

/-- `country_to_region` table in `_infer_geographic_hierarchy`. -/
def countryToRegion : List (String × String) :=
  [("Vietnam", "Southeast Asia"), ("United States", "North America"),
   ("USA", "North America"), ("France", "Europe"), ("Germany", "Europe"),
   ("United Kingdom", "Europe"), ("Japan", "East Asia"), ("China", "East Asia"),
   ("Brazil", "South America"), ("Nigeria", "Africa"), ("Australia", "Oceania"),
   ("India", "South Asia"), ("Canada", "North America")]

/-- `region_to_continent` table in `_infer_geographic_hierarchy`. -/
def regionToContinent : List (String × String) :=
  [("Southeast Asia", "Asia"), ("East Asia", "Asia"), ("South Asia", "Asia"),
   ("North America", "Americas"), ("South America", "Americas"),
   ("Europe", "Europe"), ("Africa", "Africa"), ("Oceania", "Oceania")]

/-- `_infer_geographic_hierarchy(location_name, level)`. -/
def inferGeographicHierarchy (locationName level : String) : String :=
  if level = "country" then
    ((countryToRegion.find? (fun p => p.1 = locationName)).map (fun p => p.2)).getD
      "Unknown Region"
  else if level = "region" then
    ((regionToContinent.find? (fun p => p.1 = locationName)).map (fun p => p.2)).getD
      "Unknown Continent"
  else "World"

/-- `level_mapping` in `_process_geographic_analysis`:
`mapping.get(s.lower(), s)`. -/
def standardizeImpactLevel (s : String) : String :=
  match pyLower s with
  | "global" => "Global"
  | "regional" => "Regional"
  | "national" => "National"
  | "local" => "Local"
  | _ => s

/-- The three fields `_process_geographic_analysis` writes back into the
analysis dict. -/
structure GeoResult where
  level : String
  locationIds : List Nat
  locationNames : List String
  deriving Repr, DecidableEq

/-- Location-name filter of the processing loop:
`if location_name and location_name.lower() not in ['world', 'global', 'none', '']`. -/
def geoNameAccepted (name : String) : Bool :=
  name ≠ "" && ¬ (pyLower name ∈ ["world", "global", "none", ""])

/-- One iteration of the location-processing loop of
`_process_geographic_analysis`: filter the name, map the standardized
level to a database level, resolve via `_get_or_create_location`, and
append the id and name on success. -/
def geoStep (getOrCreate : String → String → Option String → Option Nat)
    (standardizedLevel : String) (acc : List Nat × List String)
    (name : String) : List Nat × List String :=
  if geoNameAccepted name then
    match impactLevelToDbLevel standardizedLevel with
    | some dbLevel =>
      match getOrCreate name dbLevel (some (inferGeographicHierarchy name dbLevel)) with
      | some locId => (acc.1 ++ [locId], acc.2 ++ [name])
      | none => acc
    | none => acc
  else acc

/-- The standardized level computed by `_process_geographic_analysis` from
`geographical_impact_level` (lines 432–445): a list takes its first
element (or the string "Global" when empty), a falsy value becomes
"Global", anything else is stringified and stripped, then mapped through
`level_mapping`. -/
def geoLevelOf (impactLevel : JVal) : String :=
  let levelVal : JVal :=
    match impactLevel with
    | .jarr xs => (xs.head?).getD (.jstr "Global")
    | v => v
  let impactLevelStr : String :=
    if levelVal.truthy then pyStrip (pyStr levelVal) else "Global"
  standardizeImpactLevel impactLevelStr

/-- The location-name list computed by `_process_geographic_analysis` from
`geographical_impact_location` (lines 447–452): a list keeps its truthy
elements stringified and stripped; a single value becomes a singleton when
nonempty after stripping. -/
def geoNamesOf (impactLocation : JVal) : List String :=
  match impactLocation with
  | .jarr locs => (locs.filter JVal.truthy).map (fun l => pyStrip (pyStr l))
  | v =>
    let s := if v.truthy then pyStrip (pyStr v) else ""
    if s ≠ "" then [s] else []

/-- `_process_geographic_analysis` (lines 416–474), as a function of the two
fields it reads (`analysis.get('geographical_impact_level', '')` and
`analysis.get('geographical_impact_location', '')`) and of the database
snapshot.  Returns the three fields it writes. -/
def processGeographicAnalysis
    (getOrCreate : String → String → Option String → Option Nat)
    (impactLevel impactLocation : JVal) : GeoResult :=
  if ¬ impactLevel.truthy ∨ ¬ impactLocation.truthy then
    ⟨"Global", [], []⟩
  else
    let processed := (geoNamesOf impactLocation).foldl
      (geoStep getOrCreate (geoLevelOf impactLevel)) ([], [])
    ⟨geoLevelOf impactLevel, processed.1, processed.2⟩

/-! ## `news_service.fetch_unified_news` — result-processing loop
(lines 146–166) -/

/-- The per-source dict produced by `_fetch_from_source` (or by a client),
restricted to the keys the processing loop reads. -/
structure SourceResult where
  source : String
  status : String
  articles : List Article
  error : String
  deriving Repr, DecidableEq

/-- The three accumulators of the result-processing loop. -/
structure ProcessedResults where
  allArticles : List Article
  sourcesUsed : List String
  sourcesFailed : List (String × String)
  deriving Repr, DecidableEq

/-- The loop body of `fetch_unified_news` over `source_results`
(lines 151–166): `none` entries model non-dict values returned by
`asyncio.gather(..., return_exceptions=True)` for raised exceptions, which
fall through both branches.  A `success` source passes only when its
quality score reaches `min_quality_score` AND it contributed at least one
article; a non-`success` dict is recorded in `sources_failed`. -/
def processResultStep (minQuality : Int) (quality : String → Int)
    (acc : ProcessedResults) (res : Option SourceResult) : ProcessedResults :=
  match res with
  | none => acc
  | some r =>
    if r.status = "success" then
      if quality r.source ≥ minQuality ∧ r.articles ≠ [] then
        { acc with allArticles := acc.allArticles ++ r.articles,
                   sourcesUsed := acc.sourcesUsed ++ [r.source] }
      else acc
    else
      { acc with sourcesFailed := acc.sourcesFailed ++ [(r.source, r.error)] }

/-- The full result-processing loop of `fetch_unified_news`. -/
def processSourceResults (results : List (Option SourceResult))
    (minQuality : Int) (quality : String → Int) : ProcessedResults :=
  results.foldl (processResultStep minQuality quality) ⟨[], [], []⟩

/-! ## Source clients (`base_client.py`, `newsapi_client.py`, `afp_client.py`)

The transport is the external boundary: each `fetch_news` is embedded as a
total function of an environment value enumerating the outcomes of its
`try` block (HTTP 200 with parsed body, non-200, or a raised exception
carried with its message).  Totality of the Lean function is the model of
"never propagates an exception outward".  Normalized articles carry the
fields the pipeline's dedup paths read (title, url); the remaining
payload fields are untouched pass-through data. -/

/-- String extraction for a normalized field (`raw.get(k, '')` where the
pipeline later treats the value as a string). -/
def jgetStr (raw : JVal) (k : String) : String :=
  match raw with
  | .jobj fs =>
    match lookupKey fs k with
    | some (.jstr s) => s
    | _ => ""
  | _ => ""

/-- The envelope returned by a client's `fetch_news` /
`format_error_response`. -/
structure FetchResult where
  status : String
  source : String
  error : Option String
  articles : List Article
  totalResults : Nat
  deriving Repr, DecidableEq

/-- `BaseNewsClient.format_error_response`. -/
def formatErrorResponse (sourceName errorMessage : String) : FetchResult :=
  ⟨"error", sourceName, some errorMessage, [], 0⟩

/-- `BaseNewsClient.remove_duplicates`: collapse articles sharing an exact
trimmed+lower-cased title, keeping the first occurrence (empty titles are
not kept). -/
def baseRemoveDuplicatesAux : List Article → List String → List Article
  | [], _ => []
  | a :: rest, seen =>
    let title := pyLower (pyStrip a.title)
    if title ≠ "" ∧ title ∉ seen then
      a :: baseRemoveDuplicatesAux rest (title :: seen)
    else
      baseRemoveDuplicatesAux rest seen

/-- `BaseNewsClient.remove_duplicates` entry point. -/
def baseRemoveDuplicates (articles : List Article) : List Article :=
  baseRemoveDuplicatesAux articles []

/-- `NewsAPIClient.normalize_article`, restricted to the dedup-relevant
fields. -/
def normalizeNewsAPI (raw : JVal) : Article :=
  { title := jgetStr raw "title", url := jgetStr raw "url" }

/-- Outcomes of the `try` block of `NewsAPIClient.fetch_news`: a raised
exception anywhere inside it (transport, body parse, iteration), an HTTP
200 whose parsed body yielded a raw article list and total, or a non-200
status whose parsed body carried an optional `message` field. -/
inductive NewsApiEnv where
  | exn (msg : String)
  | ok (rawArticles : List JVal) (totalResults : Nat)
  | httpErr (message : Option String)
  deriving Repr

/-- `NewsAPIClient.fetch_news`. -/
def fetchNewsNewsAPI (configured : Bool) (env : NewsApiEnv) : FetchResult :=
  if ¬ configured then
    formatErrorResponse "newsapi" "NEWS_API_KEY not configured"
  else
    match env with
    | .exn msg => formatErrorResponse "newsapi" ("Request failed: " ++ msg)
    | .ok rawArticles totalResults =>
      let normalized := rawArticles.map normalizeNewsAPI
      let unique := baseRemoveDuplicates normalized
      ⟨"success", "newsapi", none, unique, totalResults⟩
    | .httpErr message =>
      formatErrorResponse "newsapi"
        ("NewsAPI error: " ++ message.getD "Unknown error")

/-- `AFPClient.normalize_article`, restricted to the dedup-relevant fields
(`headline` falling back to `title`, and `href`). -/
def normalizeAFP (raw : JVal) : Article :=
  { title := if jgetStr raw "headline" ≠ "" then jgetStr raw "headline"
             else jgetStr raw "title",
    url := jgetStr raw "href" }

/-- Outcomes of `AFPClient.fetch_news` beyond the configuration and
authentication gates: a raised exception in the outer `try`, an HTTP 200
whose body parsed into hits and docs, an HTTP 200 whose body handling
raised (inner `try`), or a non-200 status. -/
inductive AfpEnv where
  | exn (msg : String)
  | okParsed (totalHits : Nat) (rawDocs : List JVal)
  | okParseFail (msg : String)
  | httpErr (status : Nat)
  deriving Repr

/-- `AFPClient.fetch_news`: configuration gate, then authentication gate
(`_ensure_authenticated` itself returns a Bool and never raises), then the
transport interaction. -/
def fetchNewsAFP (configured authOk : Bool) (env : AfpEnv) : FetchResult :=
  if ¬ configured then
    formatErrorResponse "afp" "AFP credentials not configured"
  else if ¬ authOk then
    formatErrorResponse "afp" "AFP authentication failed"
  else
    match env with
    | .exn msg => formatErrorResponse "afp" ("Request failed: " ++ msg)
    | .okParsed totalHits rawDocs =>
      let normalized := rawDocs.map normalizeAFP
      let unique := baseRemoveDuplicates normalized
      ⟨"success", "afp", none, unique, totalHits⟩
    | .okParseFail msg =>
      formatErrorResponse "afp" ("Response parsing failed: " ++ msg)
    | .httpErr status =>
      formatErrorResponse "afp" (s!"Search error: HTTP {status}")

/-! ## Helper lemmas -/

/-- Looking up `k` in a list that maps each key to a value computed from it
returns that computed value, whenever `k` occurs. -/
theorem lookup_keyed_map (f : String → List JVal) (keys : List String)
    (k : String) (hk : k ∈ keys) :
    List.lookup k (keys.map (fun k => (k, f k))) = some (f k) := by
  induction keys with
  | nil => cases hk
  | cons k₀ ks ih =>
    by_cases h : k = k₀
    · subst h
      simp [List.lookup]
    · have hb : (k == k₀) = false := by simp [h]
      simp only [List.map_cons, List.lookup, hb]
      have hk' : k ∈ ks := by
        rcases List.mem_cons.mp hk with h' | h'
        · exact absurd h' h
        · exact h'
      exact ih hk'

/-- A fold whose step fixes the accumulator on every list element returns
the initial accumulator. -/
theorem foldl_fixed {α β : Type} (f : α → β → α) (a : α) (l : List β)
    (h : ∀ acc x, x ∈ l → f acc x = acc) : l.foldl f a = a := by
  induction l generalizing a with
  | nil => rfl
  | cons x xs ih =>
    rw [List.foldl_cons, h a x (by simp)]
    exact ih a (fun acc y hy => h acc y (by simp [hy]))

/-- Membership in `sources_used` after the `fetch_unified_news` processing
loop: a source name is appended exactly for dict results with `success`
status, passing quality, and a nonempty article list. -/
theorem mem_used_foldl (minQ : Int) (qual : String → Int)
    (rs : List (Option SourceResult)) (acc : ProcessedResults) (src : String) :
    src ∈ (rs.foldl (processResultStep minQ qual) acc).sourcesUsed ↔
      src ∈ acc.sourcesUsed ∨
        ∃ r, some r ∈ rs ∧ r.source = src ∧ r.status = "success" ∧
          qual r.source ≥ minQ ∧ r.articles ≠ [] := by
  induction rs generalizing acc with
  | nil => simp
  | cons r₀ rs ih =>
    rw [List.foldl_cons, ih]
    cases r₀ with
    | none =>
      have hstep : processResultStep minQ qual acc none = acc := rfl
      rw [hstep]
      simp
    | some x =>
      by_cases hs : x.status = "success"
      · by_cases hq : qual x.source ≥ minQ ∧ x.articles ≠ []
        · have hstep : processResultStep minQ qual acc (some x) =
              { acc with allArticles := acc.allArticles ++ x.articles,
                         sourcesUsed := acc.sourcesUsed ++ [x.source] } := by
            simp [processResultStep, hs, hq]
          rw [hstep]
          constructor
          · rintro (h | h)
            · rcases List.mem_append.mp h with h | h
              · exact Or.inl h
              · exact Or.inr ⟨x, by simp, (List.mem_singleton.mp h).symm,
                  hs, hq.1, hq.2⟩
            · rcases h with ⟨r, hr, h2, h3, h4, h5⟩
              exact Or.inr ⟨r, by simp [hr], h2, h3, h4, h5⟩
          · rintro (h | h)
            · exact Or.inl (List.mem_append.mpr (Or.inl h))
            · rcases h with ⟨r, hr, h2, h3, h4, h5⟩
              rcases List.mem_cons.mp hr with h' | h'
              · have hrx : r = x := by injection h'
                subst hrx
                exact Or.inl (List.mem_append.mpr (Or.inr (by simp [h2])))
              · exact Or.inr ⟨r, h', h2, h3, h4, h5⟩
        · have hstep : processResultStep minQ qual acc (some x) = acc := by
            simp [processResultStep, hs, hq]
          rw [hstep]
          constructor
          · rintro (h | h)
            · exact Or.inl h
            · rcases h with ⟨r, hr, h2, h3, h4, h5⟩
              exact Or.inr ⟨r, by simp [hr], h2, h3, h4, h5⟩
          · rintro (h | h)
            · exact Or.inl h
            · rcases h with ⟨r, hr, h2, h3, h4, h5⟩
              rcases List.mem_cons.mp hr with h' | h'
              · have hrx : r = x := by injection h'
                subst hrx
                exact absurd ⟨h4, h5⟩ hq
              · exact Or.inr ⟨r, h', h2, h3, h4, h5⟩
      · have hstep : processResultStep minQ qual acc (some x) =
            { acc with sourcesFailed := acc.sourcesFailed ++ [(x.source, x.error)] } := by
          simp [processResultStep, hs]
        rw [hstep]
        constructor
        · rintro (h | h)
          · exact Or.inl h
          · rcases h with ⟨r, hr, h2, h3, h4, h5⟩
            exact Or.inr ⟨r, by simp [hr], h2, h3, h4, h5⟩
        · rintro (h | h)
          · exact Or.inl h
          · rcases h with ⟨r, hr, h2, h3, h4, h5⟩
            rcases List.mem_cons.mp hr with h' | h'
            · have hrx : r = x := by injection h'
              subst hrx
              exact absurd h3 hs
            · exact Or.inr ⟨r, h', h2, h3, h4, h5⟩

/-- Membership in `sources_failed` after the processing loop: a source name
is appended exactly for dict results whose status is not `success`. -/
theorem mem_failed_foldl (minQ : Int) (qual : String → Int)
    (rs : List (Option SourceResult)) (acc : ProcessedResults) (src : String) :
    src ∈ ((rs.foldl (processResultStep minQ qual) acc).sourcesFailed).map
        (fun p => p.1) ↔
      src ∈ acc.sourcesFailed.map (fun p => p.1) ∨
        ∃ r, some r ∈ rs ∧ r.source = src ∧ r.status ≠ "success" := by
  induction rs generalizing acc with
  | nil => simp
  | cons r₀ rs ih =>
    rw [List.foldl_cons, ih]
    cases r₀ with
    | none =>
      have hstep : processResultStep minQ qual acc none = acc := rfl
      rw [hstep]
      simp
    | some x =>
      by_cases hs : x.status = "success"
      · have hstep : processResultStep minQ qual acc (some x) =
            if qual x.source ≥ minQ ∧ x.articles ≠ [] then
              { acc with allArticles := acc.allArticles ++ x.articles,
                         sourcesUsed := acc.sourcesUsed ++ [x.source] }
            else acc := by
          simp [processResultStep, hs]
        rw [hstep]
        have hfail : (if qual x.source ≥ minQ ∧ x.articles ≠ [] then
              { acc with allArticles := acc.allArticles ++ x.articles,
                         sourcesUsed := acc.sourcesUsed ++ [x.source] }
            else acc).sourcesFailed = acc.sourcesFailed := by
          by_cases hq : qual x.source ≥ minQ ∧ x.articles ≠ [] <;> simp [hq]
        rw [hfail]
        constructor
        · rintro (h | h)
          · exact Or.inl h
          · rcases h with ⟨r, hr, h2, h3⟩
            exact Or.inr ⟨r, by simp [hr], h2, h3⟩
        · rintro (h | h)
          · exact Or.inl h
          · rcases h with ⟨r, hr, h2, h3⟩
            rcases List.mem_cons.mp hr with h' | h'
            · have hrx : r = x := by injection h'
              subst hrx
              exact absurd hs h3
            · exact Or.inr ⟨r, h', h2, h3⟩
      · have hstep : processResultStep minQ qual acc (some x) =
            { acc with sourcesFailed := acc.sourcesFailed ++ [(x.source, x.error)] } := by
          simp [processResultStep, hs]
        rw [hstep]
        constructor
        · rintro (h | h)
          · rcases List.mem_map.mp h with ⟨p, hp, hpe⟩
            rcases List.mem_append.mp hp with h' | h'
            · exact Or.inl (List.mem_map.mpr ⟨p, h', hpe⟩)
            · refine Or.inr ⟨x, by simp, ?_, hs⟩
              have hpx : p = (x.source, x.error) := List.mem_singleton.mp h'
              rw [← hpe, hpx]
          · rcases h with ⟨r, hr, h2, h3⟩
            exact Or.inr ⟨r, by simp [hr], h2, h3⟩
        · rintro (h | h)
          · rcases List.mem_map.mp h with ⟨p, hp, hpe⟩
            exact Or.inl (List.mem_map.mpr ⟨p, List.mem_append.mpr (Or.inl hp), hpe⟩)
          · rcases h with ⟨r, hr, h2, h3⟩
            rcases List.mem_cons.mp hr with h' | h'
            · have hrx : r = x := by injection h'
              subst hrx
              refine Or.inl (List.mem_map.mpr ⟨(r.source, r.error), ?_, h2⟩)
              exact List.mem_append.mpr (Or.inr (by simp))
            · exact Or.inr ⟨r, h', h2, h3⟩

/-- `qSub` is subtraction on `ℚ`. -/
theorem qSub_eq (a b : ℚ) : qSub a b = a - b := by
  have ha : ((a.den : ℚ)) ≠ 0 := Nat.cast_ne_zero.mpr a.den_nz
  have hb : ((b.den : ℚ)) ≠ 0 := Nat.cast_ne_zero.mpr b.den_nz
  rw [qSub, Rat.mkRat_eq_div]
  push_cast
  conv_rhs => rw [← Rat.num_div_den a, ← Rat.num_div_den b]
  rw [div_sub_div _ _ ha hb]
  congr 1
  ring

/-- `qAdd` is addition on `ℚ`. -/
theorem qAdd_eq (a b : ℚ) : qAdd a b = a + b := by
  have ha : ((a.den : ℚ)) ≠ 0 := Nat.cast_ne_zero.mpr a.den_nz
  have hb : ((b.den : ℚ)) ≠ 0 := Nat.cast_ne_zero.mpr b.den_nz
  rw [qAdd, Rat.mkRat_eq_div]
  push_cast
  conv_rhs => rw [← Rat.num_div_den a, ← Rat.num_div_den b]
  rw [div_add_div _ _ ha hb]
  congr 1
  ring

/-- The common prefix of two lists is no longer than the first. -/
theorem commonPrefixLen_le_left :
    ∀ (a b : List Char), commonPrefixLen a b ≤ a.length := by
  intro a
  induction a with
  | nil => intro b; cases b <;> simp [commonPrefixLen]
  | cons x xs ih =>
    intro b
    cases b with
    | nil => simp [commonPrefixLen]
    | cons y ys =>
      by_cases h : x = y <;> simp [commonPrefixLen, h]
      exact ih ys

/-- The common prefix of two lists is no longer than the second. -/
theorem commonPrefixLen_le_right :
    ∀ (a b : List Char), commonPrefixLen a b ≤ b.length := by
  intro a
  induction a with
  | nil => intro b; cases b <;> simp [commonPrefixLen]
  | cons x xs ih =>
    intro b
    cases b with
    | nil => simp [commonPrefixLen]
    | cons y ys =>
      by_cases h : x = y <;> simp [commonPrefixLen, h]
      exact ih ys

/-- A fold preserves any invariant its step preserves. -/
theorem foldl_preserve {α β : Type} (P : α → Prop) (f : α → β → α)
    (l : List β) (init : α) (h0 : P init)
    (hstep : ∀ acc x, x ∈ l → P acc → P (f acc x)) : P (l.foldl f init) := by
  induction l generalizing init with
  | nil => exact h0
  | cons x xs ih =>
    exact ih (f init x) (hstep init x (by simp) h0)
      (fun acc y hy h => hstep acc y (by simp [hy]) h)

/-- The block produced by `findLongestMatch` is valid: a trivial `(0,0,0)`
or a block inside both lists whose size is the run length at its start. -/
theorem findLongestMatch_valid (a b : List Char) :
    findLongestMatch a b = (0, 0, 0) ∨
      ((findLongestMatch a b).1 < a.length ∧
       (findLongestMatch a b).2.1 < b.length ∧
       (findLongestMatch a b).2.2 =
         matchLenAt a b (findLongestMatch a b).1 (findLongestMatch a b).2.1) := by
  suffices h : (fun m : Nat × Nat × Nat => m = (0, 0, 0) ∨
      (m.1 < a.length ∧ m.2.1 < b.length ∧
        m.2.2 = matchLenAt a b m.1 m.2.1)) (findLongestMatch a b) by
    exact h
  unfold findLongestMatch
  apply foldl_preserve (fun m : Nat × Nat × Nat => m = (0, 0, 0) ∨
    (m.1 < a.length ∧ m.2.1 < b.length ∧ m.2.2 = matchLenAt a b m.1 m.2.1))
  · exact Or.inl rfl
  · intro acc i hi hacc
    apply foldl_preserve (fun m : Nat × Nat × Nat => m = (0, 0, 0) ∨
      (m.1 < a.length ∧ m.2.1 < b.length ∧ m.2.2 = matchLenAt a b m.1 m.2.1))
    · exact hacc
    · intro acc2 j hj hacc2
      show (fun m : Nat × Nat × Nat => m = (0, 0, 0) ∨
        (m.1 < a.length ∧ m.2.1 < b.length ∧
          m.2.2 = matchLenAt a b m.1 m.2.1))
        (if matchLenAt a b i j > acc2.2.2 then (i, j, matchLenAt a b i j) else acc2)
      by_cases h : matchLenAt a b i j > acc2.2.2
      · simp only [if_pos h]
        exact Or.inr ⟨List.mem_range.mp hi, List.mem_range.mp hj, by simp⟩
      · simp only [if_neg h]
        exact hacc2

/-- The block of `findLongestMatch` fits inside both lists when nonempty. -/
theorem findLongestMatch_bounds (a b : List Char)
    (h : (findLongestMatch a b).2.2 ≠ 0) :
    (findLongestMatch a b).1 + (findLongestMatch a b).2.2 ≤ a.length ∧
    (findLongestMatch a b).2.1 + (findLongestMatch a b).2.2 ≤ b.length := by
  rcases findLongestMatch_valid a b with h0 | ⟨hi, hj, hk⟩
  · rw [h0] at h
    simp at h
  · constructor
    · have h1 := commonPrefixLen_le_left (a.drop (findLongestMatch a b).1)
        (b.drop (findLongestMatch a b).2.1)
      rw [List.length_drop] at h1
      rw [hk]
      unfold matchLenAt
      omega
    · have h1 := commonPrefixLen_le_right (a.drop (findLongestMatch a b).1)
        (b.drop (findLongestMatch a b).2.1)
      rw [List.length_drop] at h1
      rw [hk]
      unfold matchLenAt
      omega

/-- Any fuel at least the combined length computes the same matching total:
the fuel `a.length + b.length` used by `matchingTotal` always suffices. -/
theorem matchingTotalF_fuel (n : Nat) :
    ∀ (a b : List Char) (f g : Nat), a.length + b.length ≤ n →
      a.length + b.length ≤ f → a.length + b.length ≤ g →
      matchingTotalF f a b = matchingTotalF g a b := by
  induction n with
  | zero =>
    intro a b f g hn _ _
    have ha : a = [] := List.length_eq_zero.mp (by omega)
    have hb : b = [] := List.length_eq_zero.mp (by omega)
    subst ha; subst hb
    cases f <;> cases g <;> rfl
  | succ n ih =>
    intro a b f g hn hf hg
    by_cases hle : a.length + b.length ≤ n
    · exact ih a b f g hle hf hg
    · have hsum : a.length + b.length = n + 1 := by omega
      obtain ⟨f', rfl⟩ : ∃ f', f = f' + 1 := ⟨f - 1, by omega⟩
      obtain ⟨g', rfl⟩ : ∃ g', g = g' + 1 := ⟨g - 1, by omega⟩
      show matchingTotalF (f' + 1) a b = matchingTotalF (g' + 1) a b
      simp only [matchingTotalF]
      by_cases hk : (findLongestMatch a b).2.2 = 0
      · simp [hk]
      · simp only [if_neg hk]
        have hb := findLongestMatch_bounds a b hk
        have hk1 : 1 ≤ (findLongestMatch a b).2.2 := Nat.one_le_iff_ne_zero.mpr hk
        have hlt : (a.take (findLongestMatch a b).1).length +
            (b.take (findLongestMatch a b).2.1).length ≤ n := by
          simp only [List.length_take]
          omega
        have hrt : (a.drop ((findLongestMatch a b).1 + (findLongestMatch a b).2.2)).length +
            (b.drop ((findLongestMatch a b).2.1 + (findLongestMatch a b).2.2)).length ≤ n := by
          simp only [List.length_drop]
          omega
        rw [ih _ _ f' g' hlt (by omega) (by omega),
            ih _ _ f' g' hrt (by omega) (by omega)]

/-! ## Claim theorems -/

/-- C5: for every input, a Source Client's fetch operation never propagates
an exception outward (the embedding is a total function of the transport
outcome): every result is either a success, or carries status "error", an
error message, and an empty article list. -/
theorem C5_fetch_never_throws (confA authA : Bool) (envA : AfpEnv)
    (confN : Bool) (envN : NewsApiEnv) :
    ((fetchNewsAFP confA authA envA).status = "success" ∨
      ((fetchNewsAFP confA authA envA).status = "error" ∧
       (fetchNewsAFP confA authA envA).error ≠ none ∧
       (fetchNewsAFP confA authA envA).articles = [])) ∧
    ((fetchNewsNewsAPI confN envN).status = "success" ∨
      ((fetchNewsNewsAPI confN envN).status = "error" ∧
       (fetchNewsNewsAPI confN envN).error ≠ none ∧
       (fetchNewsNewsAPI confN envN).articles = [])) := by
  constructor
  · cases confA <;> cases authA <;> cases envA <;>
      simp [fetchNewsAFP, formatErrorResponse]
  · cases confN <;> cases envN <;>
      simp [fetchNewsNewsAPI, formatErrorResponse]

/-- C10: a source whose fetch succeeded with an empty article list appears
in neither `sourcesUsed` nor `sourcesFailed`; membership in `sourcesUsed`
requires success, a passing quality score, and at least one article. -/
theorem C10_empty_success_sources (results : List (Option SourceResult))
    (minQ : Int) (qual : String → Int) (src : String)
    (h : ∀ r, some r ∈ results → r.source = src →
      r.status = "success" ∧ r.articles = []) :
    src ∉ (processSourceResults results minQ qual).sourcesUsed ∧
    src ∉ ((processSourceResults results minQ qual).sourcesFailed).map
        (fun p => p.1) ∧
    (∀ s, s ∈ (processSourceResults results minQ qual).sourcesUsed →
      ∃ r, some r ∈ results ∧ r.source = s ∧ r.status = "success" ∧
        qual r.source ≥ minQ ∧ r.articles ≠ []) := by
  refine ⟨?_, ?_, ?_⟩
  · intro hmem
    rcases (mem_used_foldl minQ qual results ⟨[], [], []⟩ src).mp hmem with h' | h'
    · simp at h'
    · rcases h' with ⟨r, hr, h2, _, _, h5⟩
      exact h5 (h r hr h2).2
  · intro hmem
    rcases (mem_failed_foldl minQ qual results ⟨[], [], []⟩ src).mp hmem with h' | h'
    · simp at h'
    · rcases h' with ⟨r, hr, h2, h3⟩
      exact h3 (h r hr h2).1
  · intro s hs
    rcases (mem_used_foldl minQ qual results ⟨[], [], []⟩ s).mp hs with h' | h'
    · simp at h'
    · rcases h' with ⟨r, hr, h2, h3, h4, h5⟩
      exact ⟨r, hr, h2, h3, h4, h5⟩

/-- Closed witness for C10: a batch where the only result for source `s1`
is a success with no articles, and a failed source `s2`. -/
theorem C10_empty_success_sources_witness :
    "s1" ∉ (processSourceResults
        [some ⟨"s1", "success", [], ""⟩, some ⟨"s2", "error", [], "boom"⟩]
        0 (fun _ => 10)).sourcesUsed := by
  exact (C10_empty_success_sources
    [some ⟨"s1", "success", [], ""⟩, some ⟨"s2", "error", [], "boom"⟩]
    0 (fun _ => 10) "s1"
    (by
      intro r hr hsrc
      rcases List.mem_cons.mp hr with h | h
      · have hr1 : r = ⟨"s1", "success", [], ""⟩ := by injection h
        subst hr1
        exact ⟨rfl, rfl⟩
      · rcases List.mem_cons.mp h with h' | h'
        · have hr2 : r = ⟨"s2", "error", [], "boom"⟩ := by injection h'
          subst hr2
          simp at hsrc
        · cases h')).1

/-- C4: the synthesized fallback for a batch of N articles has exactly N
records; every record carries all six named emotion scores as the number
0.0 and the reasoning string "Parsing failed". -/
theorem C4_fallback_wellformed (n : Nat) :
    (createFallbackResults n).length = n ∧
    ∀ v ∈ createFallbackResults n, ∃ fs, v = JVal.jobj fs ∧
      lookupKey fs "reasoning" = some (.jstr "Parsing failed") ∧
      ∃ em, lookupKey fs "emotions" = some (.jobj em) ∧
        ∀ e ∈ (["hope", "awe", "gratitude", "compassion", "relief", "joy"] :
            List String),
          lookupKey em e = some (.jnum 0) := by
  constructor
  · simp [createFallbackResults]
  · intro v hv
    rcases List.mem_map.mp hv with ⟨i, _, rfl⟩
    refine ⟨_, rfl, rfl, _, rfl, ?_⟩
    intro e he
    fin_cases he <;> rfl

/-- Closed witness for C4 at a batch of three articles, inspecting the
first synthesized record. -/
theorem C4_fallback_wellformed_witness :
    (createFallbackResults 3).length = 3 ∧
    (∃ fs, fallbackRecord 0 = JVal.jobj fs ∧
      lookupKey fs "reasoning" = some (.jstr "Parsing failed") ∧
      ∃ em, lookupKey fs "emotions" = some (.jobj em) ∧
        ∀ e ∈ (["hope", "awe", "gratitude", "compassion", "relief", "joy"] :
            List String),
          lookupKey em e = some (.jnum 0)) :=
  ⟨(C4_fallback_wellformed 3).1,
   (C4_fallback_wellformed 3).2 (fallbackRecord 0)
     (List.mem_map.mpr ⟨0, by simp, rfl⟩)⟩

/-- C1 counterexample: a state whose daily cap is exhausted (a quota
predicate, not the pacing interval, blocks admission: `timing_ok` holds,
`daily_ok` fails) — yet the batch loop still emits the outbound API call,
so the call is not abandoned. -/
theorem C1_counterexample :
    dailyOk (resetCountersIfNeeded ⟨5, 0, 0, 900, some 0, 700⟩ ⟨5, 700, 500⟩) = false ∧
    timingOk (resetCountersIfNeeded ⟨5, 0, 0, 900, some 0, 700⟩ ⟨5, 700, 500⟩)
      ⟨5, 700, 500⟩ = true ∧
    (canMakeRequest ⟨5, 0, 0, 900, some 0, 700⟩ ⟨5, 700, 500⟩ 10000).2.canProceed
      = false ∧
    BatchEvent.apiCall ∈
      (processBatchStep ⟨5, 0, 0, 900, some 0, 700⟩ ⟨5, 700, 500⟩ ⟨5, 700, 501⟩
        10000 2000).2 := by
  decide

/-- C2 counterexample: a response carrying the prompt key with a
wrong-length array (1 record for a batch of 3) is passed through at
length 1, not corrected to 3. -/
theorem C2_counterexample :
    ((parseCombinedResponse (some (.jobj [("p1", .jarr [.jobj []])])) ["p1"] 3).map
        (fun p => (p.1, p.2.length))) = [("p1", 1)] ∧ (1 : Nat) ≠ 3 :=
  ⟨rfl, by decide⟩

set_option maxRecDepth 40000 in
/-- C3 counterexample: titles "alpha beta" / "beta alpha" have token-set
IoU 1 ≥ 0.8 yet the cross-run check does not mark a duplicate (its
`SequenceMatcher` character ratio is 1/2 < 0.8); titles "a b c x" /
"a b c y" have IoU 3/5 < 0.7 yet the within-batch check drops the later
one (its overlap-over-max ratio is 3/4 > 0.7). -/
theorem C3_counterexample :
    specTokenOverlapIoU "alpha beta" "beta alpha" ≥ mkRat 8 10 ∧
    isDuplicate ⟨"alpha beta", "url2", 0⟩ [⟨"url1", "beta alpha"⟩] = (false, none) ∧
    specTokenOverlapIoU "a b c x" "a b c y" < mkRat 7 10 ∧
    removeCrossSourceDuplicates [⟨"a b c x", "u1", 1⟩, ⟨"a b c y", "u2", 2⟩] =
      [⟨"a b c x", "u1", 1⟩] := by
  decide

/-- C6 counterexample: an unrecognized impact level string passes through
unchanged (outside the closed vocabulary); an absent location yields an
empty code list rather than a single "World" code; four resolvable
repetitions of one location yield four codes — no 3-cap and no
de-duplication. -/
theorem C6_counterexample :
    processGeographicAnalysis (fun _ _ _ => some 42) (.jstr "Continental")
        (.jstr "France") = ⟨"Continental", [], []⟩ ∧
    "Continental" ∉ (["Local", "National", "Regional", "Global"] : List String) ∧
    processGeographicAnalysis (fun _ _ _ => some 42) (.jstr "") (.jstr "France") =
      ⟨"Global", [], []⟩ ∧
    (processGeographicAnalysis (fun _ _ _ => some 7) (.jstr "National")
        (.jarr [.jstr "France", .jstr "France", .jstr "France", .jstr "France"])).locationIds
      = [7, 7, 7, 7] := by
  decide

set_option maxRecDepth 40000 in
/-- C7 counterexample: a candidate URL identical to a stored one after
trimming and lower-casing (but differing in case) is not marked a
duplicate — the check is exact string equality. -/
theorem C7_counterexample :
    pyLower (pyStrip "HTTP://A.COM/X") = pyLower (pyStrip "http://a.com/x") ∧
    isDuplicate ⟨"Some Title", "HTTP://A.COM/X", 0⟩
      [⟨"http://a.com/x", "zzz qqq rrr"⟩] = (false, none) := by
  decide

/-- C8 counterexample: an article with an empty title is not kept by the
within-batch cross-source dedup — it is silently excluded from the result
list, not passed through (the cross-run check does return not-duplicate). -/
theorem C8_counterexample :
    removeCrossSourceDuplicates [⟨"", "u1", 1⟩] = [] ∧
    isDuplicate ⟨"", "u", 0⟩ [⟨"u", ""⟩] = (false, none) := by
  decide

/-- C1 (amended): when the admission check fails — on the pacing interval
or on any quota predicate — the batch loop sleeps
`seconds_until_next_allowed + 1` seconds only when that wait is positive,
and then issues the outbound call unconditionally without re-checking; in
particular the API call event occurs in every iteration, and whenever the
pacing interval is satisfied (so only quota predicates can be blocking)
the trace is exactly the call and its recording, with no sleep and no
abandonment. -/
theorem C1_quota_never_abandons (st : RateLimiterState) (now callTime : Time)
    (est act : Nat) :
    BatchEvent.apiCall ∈ (processBatchStep st now callTime est act).2 ∧
    (timingOk (resetCountersIfNeeded st now) now = true →
      (processBatchStep st now callTime est act).2 =
        [BatchEvent.apiCall, BatchEvent.record act]) := by
  constructor
  · simp [processBatchStep]
  · intro h
    have hsec : (canMakeRequest st now est).2.secondsUntilNextAllowed = 0 := by
      cases hlr : (resetCountersIfNeeded st now).lastRequestTime with
      | none => simp [canMakeRequest, hlr]
      | some t0 =>
        have hge : qSub now.absSeconds t0 ≥ targetBatchInterval := by
          unfold timingOk at h
          rw [hlr] at h
          exact of_decide_eq_true h
        have hmax : max 0 (qSub targetBatchInterval (qSub now.absSeconds t0)) = 0 := by
          apply max_eq_left
          rw [qSub_eq]
          linarith
        by_cases h0 : qSub now.absSeconds t0 = 0
        · simp [canMakeRequest, hlr, h0]
        · simp [canMakeRequest, hlr, h0, hmax]
    simp [processBatchStep, hsec]

/-- Closed witness for C1 (amended): with the daily quota exhausted and the
pacing interval satisfied, the iteration still performs exactly the call
and its recording. -/
theorem C1_quota_never_abandons_witness :
    (processBatchStep ⟨5, 0, 0, 900, some 0, 700⟩ ⟨5, 700, 500⟩ ⟨5, 700, 501⟩
        10000 2000).2 = [BatchEvent.apiCall, BatchEvent.record 2000] :=
  (C1_quota_never_abandons ⟨5, 0, 0, 900, some 0, 700⟩ ⟨5, 700, 500⟩
    ⟨5, 700, 501⟩ 10000 2000).2 (by decide)

/-- C9 (amended): the admission check mutates the rate-limiter state only
through the lazy counter reset: it never changes `last_request_time`, and
when neither the wall-clock minute nor the date has advanced it leaves the
state exactly unchanged. -/
theorem C9_admission_frame (st : RateLimiterState) (now : Time) (tok : Nat) :
    (canMakeRequest st now tok).1 = resetCountersIfNeeded st now ∧
    (canMakeRequest st now tok).1.lastRequestTime = st.lastRequestTime ∧
    (now.minute = st.currentMinute → ¬ st.lastResetDate < now.date →
      (canMakeRequest st now tok).1 = st) := by
  refine ⟨rfl, ?_, ?_⟩
  · show (resetCountersIfNeeded st now).lastRequestTime = st.lastRequestTime
    simp only [resetCountersIfNeeded]
    split_ifs <;> rfl
  · intro h1 h2
    show resetCountersIfNeeded st now = st
    simp [resetCountersIfNeeded, h1, h2]

/-- Closed witness for C9 (amended): a check within the same minute and day
leaves the concrete state untouched. -/
theorem C9_admission_frame_witness :
    (canMakeRequest ⟨5, 3, 100, 10, some 0, 700⟩ ⟨5, 700, 500⟩ 10000).1 =
      (⟨5, 3, 100, 10, some 0, 700⟩ : RateLimiterState) :=
  (C9_admission_frame ⟨5, 3, 100, 10, some 0, 700⟩ ⟨5, 700, 500⟩ 10000).2.2
    rfl (by decide)

/-- C7 (amended): the cross-run URL check is exact string equality — a
candidate with nonempty url and title whose url literally equals a stored
`url_id` is marked duplicate with reason "URL match" (no trimming or
case-folding is applied by the check itself). -/
theorem C7_url_exact_match (a : Article) (store : List StoredArticle)
    (hu : a.url ≠ "") (ht : a.title ≠ "")
    (hex : ∃ r ∈ store, r.url_id = a.url) :
    isDuplicate a store = (true, some "URL match") := by
  have hchk : checkUrlDuplicate a.url store = true := by
    rcases hex with ⟨r, hr, hre⟩
    unfold checkUrlDuplicate
    rw [List.any_eq_true]
    exact ⟨r, hr, by simp [hre]⟩
  unfold isDuplicate
  rw [if_neg (not_or.mpr ⟨hu, ht⟩), if_pos hchk]

/-- Closed witness for C7 (amended) at a concrete store. -/
theorem C7_url_exact_match_witness :
    isDuplicate ⟨"Some Title", "http://a.com/x", 0⟩
      [⟨"http://a.com/x", "other title"⟩] = (true, some "URL match") :=
  C7_url_exact_match ⟨"Some Title", "http://a.com/x", 0⟩
    [⟨"http://a.com/x", "other title"⟩] (by decide) (by decide)
    ⟨⟨"http://a.com/x", "other title"⟩, by simp, rfl⟩

/-- C8 (amended): an article with an empty url or title is never marked a
duplicate by the cross-run check; the within-batch dedup never treats an
empty-title article as a duplicate of anything but does NOT pass it
through — it is excluded from the result list without affecting the rest
of the batch. -/
theorem C8_empty_fields :
    (∀ (a : Article) (store : List StoredArticle),
      a.url = "" ∨ a.title = "" → isDuplicate a store = (false, none)) ∧
    (∀ (a : Article) (rest : List Article) (seen : List String),
      pyLower (pyStrip a.title) = "" →
      removeCSDAux (a :: rest) seen = removeCSDAux rest seen) := by
  constructor
  · intro a store h
    unfold isDuplicate
    rw [if_pos h]
  · intro a rest seen h
    simp [removeCSDAux, h]

/-- Closed witness for C8 (amended) at concrete articles. -/
theorem C8_empty_fields_witness :
    isDuplicate ⟨"", "http://u", 0⟩ [⟨"http://u", "a title"⟩] = (false, none) ∧
    removeCSDAux [⟨"", "u2", 5⟩] ["kept title"] = removeCSDAux [] ["kept title"] :=
  ⟨(C8_empty_fields).1 ⟨"", "http://u", 0⟩ [⟨"http://u", "a title"⟩] (Or.inr rfl),
   (C8_empty_fields).2 ⟨"", "u2", 5⟩ [] ["kept title"] (by decide)⟩

/-- C2 (amended): the response parser synthesizes exactly N fallback
results per prompt key when the response is unparseable or lacks the key
— but a key present with an array passes that array through at whatever
length it has (it is not corrected to N). -/
theorem C2_parse_lengths (keys : List String) (n : Nat) (k : String)
    (hk : k ∈ keys) :
    (createFallbackResults n).length = n ∧
    (parseCombinedResponse none keys n).lookup k =
      some (createFallbackResults n) ∧
    (∀ fields, lookupKey fields k = none →
      (parseCombinedResponse (some (.jobj fields)) keys n).lookup k =
        some (createFallbackResults n)) ∧
    (∀ fields xs, lookupKey fields k = some (.jarr xs) →
      (parseCombinedResponse (some (.jobj fields)) keys n).lookup k = some xs) := by
  refine ⟨by simp [createFallbackResults], ?_, ?_, ?_⟩
  · exact lookup_keyed_map (fun _ => createFallbackResults n) keys k hk
  · intro fields hf
    have h1 := lookup_keyed_map (fun k =>
      match lookupKey fields k with
      | some (.jarr xs) => xs
      | some v => [v]
      | none => createFallbackResults n) keys k hk
    simpa [parseCombinedResponse, hf] using h1
  · intro fields xs hf
    have h1 := lookup_keyed_map (fun k =>
      match lookupKey fields k with
      | some (.jarr xs) => xs
      | some v => [v]
      | none => createFallbackResults n) keys k hk
    simpa [parseCombinedResponse, hf] using h1

/-- Closed witness for C2 (amended): a two-prompt call over a batch of 3
with one key missing synthesizes 3 fallbacks for it. -/
theorem C2_parse_lengths_witness :
    (parseCombinedResponse (some (.jobj [("p2", .jarr [])])) ["p1", "p2"] 3).lookup
        "p1" = some (createFallbackResults 3) :=
  (C2_parse_lengths ["p1", "p2"] 3 "p1" (by simp)).2.2.1
    [("p2", .jarr [])] rfl

/-- C9 counterexample: an admission check across a minute boundary mutates
the rate-limiter state (the lazy reset zeroes the minute counters). -/
theorem C9_counterexample :
    (canMakeRequest ⟨5, 3, 100, 10, some 0, 700⟩ ⟨6, 700, 500⟩ 10000).1 ≠
      (⟨5, 3, 100, 10, some 0, 700⟩ : RateLimiterState) := by
  decide

/-- C3 (amended): the two approximate-title checks use different metrics,
neither of which is token IoU.  Cross-run: a candidate (nonempty url and
title, url not stored) is marked "Title similarity" exactly when some
stored title reaches `SequenceMatcher` character ratio 0.8 against it
(both lower-cased).  Within-batch: for a pair of articles, the later is
dropped when the token overlap divided by the larger token-set size
exceeds 0.7, and kept (both kept, in order) when that ratio is at most
0.7 and both processed titles are nonempty. -/
theorem C3_similarity_semantics :
    (∀ (a : Article) (store : List StoredArticle),
      a.url ≠ "" → a.title ≠ "" → checkUrlDuplicate a.url store = false →
      (∃ r ∈ store, seqRatio (pyLower a.title) (pyLower r.title) ≥
        titleSimilarityThreshold) →
      isDuplicate a store = (true, some "Title similarity")) ∧
    (∀ (a : Article) (store : List StoredArticle),
      checkUrlDuplicate a.url store = false →
      (∀ r ∈ store, seqRatio (pyLower a.title) (pyLower r.title) <
        titleSimilarityThreshold) →
      (isDuplicate a store).1 = false) ∧
    (∀ (a b : Article),
      pyLower (pyStrip a.title) ≠ "" →
      (tokenSet (pyLower (pyStrip a.title))).card ≠ 0 →
      (tokenSet (pyLower (pyStrip b.title))).card ≠ 0 →
      mkRat ((tokenSet (pyLower (pyStrip b.title)) ∩
          tokenSet (pyLower (pyStrip a.title))).card)
        (max (tokenSet (pyLower (pyStrip b.title))).card
          (tokenSet (pyLower (pyStrip a.title))).card) > mkRat 7 10 →
      removeCrossSourceDuplicates [a, b] = [a]) ∧
    (∀ (a b : Article),
      pyLower (pyStrip a.title) ≠ "" → pyLower (pyStrip b.title) ≠ "" →
      mkRat ((tokenSet (pyLower (pyStrip b.title)) ∩
          tokenSet (pyLower (pyStrip a.title))).card)
        (max (tokenSet (pyLower (pyStrip b.title))).card
          (tokenSet (pyLower (pyStrip a.title))).card) ≤ mkRat 7 10 →
      removeCrossSourceDuplicates [a, b] = [a, b]) := by
  refine ⟨?_, ?_, ?_, ?_⟩
  · intro a store hu ht hurl hex
    have hchk : checkTitleSimilarity a.title store = true := by
      rcases hex with ⟨r, hr, hge⟩
      unfold checkTitleSimilarity
      rw [List.any_eq_true]
      exact ⟨r, hr, decide_eq_true hge⟩
    unfold isDuplicate
    rw [if_neg (not_or.mpr ⟨hu, ht⟩), if_neg (by simp [hurl]), if_pos hchk]
  · intro a store hurl hall
    unfold isDuplicate
    by_cases hempty : a.url = "" ∨ a.title = ""
    · rw [if_pos hempty]
    · rw [if_neg hempty, if_neg (by simp [hurl])]
      have hchk : checkTitleSimilarity a.title store = false := by
        unfold checkTitleSimilarity
        rw [List.any_eq_false]
        intro r hr
        simp only [decide_eq_true_eq]
        exact not_le.mpr (hall r hr)
      rw [if_neg (by simp [hchk])]
  · intro a b hta hca hcb hsim
    have hw : wbSimilar (tokenSet (pyLower (pyStrip b.title)))
        (pyLower (pyStrip a.title)) = true := by
      show (if (tokenSet (pyLower (pyStrip b.title))).card ≠ 0 ∧
          (tokenSet (pyLower (pyStrip a.title))).card ≠ 0 then
        decide (mkRat ((tokenSet (pyLower (pyStrip b.title)) ∩
            tokenSet (pyLower (pyStrip a.title))).card)
          (max (tokenSet (pyLower (pyStrip b.title))).card
            (tokenSet (pyLower (pyStrip a.title))).card) > mkRat 7 10)
        else false) = true
      rw [if_pos ⟨hcb, hca⟩]
      exact decide_eq_true hsim
    simp [removeCrossSourceDuplicates, removeCSDAux, hta, hw]
  · intro a b hta htb hsim
    have hw : wbSimilar (tokenSet (pyLower (pyStrip b.title)))
        (pyLower (pyStrip a.title)) = false := by
      show (if (tokenSet (pyLower (pyStrip b.title))).card ≠ 0 ∧
          (tokenSet (pyLower (pyStrip a.title))).card ≠ 0 then
        decide (mkRat ((tokenSet (pyLower (pyStrip b.title)) ∩
            tokenSet (pyLower (pyStrip a.title))).card)
          (max (tokenSet (pyLower (pyStrip b.title))).card
            (tokenSet (pyLower (pyStrip a.title))).card) > mkRat 7 10)
        else false) = false
      split_ifs with hcond
      · exact decide_eq_false (not_lt.mpr hsim)
      · rfl
    simp [removeCrossSourceDuplicates, removeCSDAux, hta, htb, hw]

set_option maxRecDepth 40000 in
/-- Closed witness for C3 (amended): an identical stored title is caught by
the character-ratio check, and a 3-of-4-token overlap (0.75 > 0.7) drops
the later article within a batch. -/
theorem C3_similarity_semantics_witness :
    isDuplicate ⟨"abc news", "u1", 0⟩ [⟨"u2", "abc news"⟩] =
      (true, some "Title similarity") ∧
    removeCrossSourceDuplicates
      [⟨"solar wind power x", "u1", 1⟩, ⟨"solar wind power y", "u2", 2⟩] =
      [⟨"solar wind power x", "u1", 1⟩] :=
  ⟨(C3_similarity_semantics).1 ⟨"abc news", "u1", 0⟩ [⟨"u2", "abc news"⟩]
      (by decide) (by decide) (by decide)
      ⟨⟨"u2", "abc news"⟩, by simp, by decide⟩,
   (C3_similarity_semantics).2.2.1 ⟨"solar wind power x", "u1", 1⟩
      ⟨"solar wind power y", "u2", 2⟩ (by decide) (by decide) (by decide)
      (by decide)⟩

/-- C6 (amended): geographic post-processing defaults to level "Global"
with empty code and name lists when either field is falsy; a recognized
level string (after trim, case-insensitively) lands in the closed
vocabulary, but any other string passes through unchanged; levels outside
{National, Regional, Local} (including "Global" and unrecognized strings)
yield no codes at all — there is no "World" fallback code; and the id and
name lists always have equal length (each resolved location appends one
id and one name, with no cap and no de-duplication). -/
theorem C6_geo_semantics :
    (∀ (g : String → String → Option String → Option Nat) (lv loc : JVal),
      lv.truthy = false ∨ loc.truthy = false →
      processGeographicAnalysis g lv loc = ⟨"Global", [], []⟩) ∧
    (∀ (g : String → String → Option String → Option Nat) (s : String)
        (loc : JVal), loc.truthy = true →
      pyLower (pyStrip s) ∈ (["global", "regional", "national", "local"] :
        List String) →
      (processGeographicAnalysis g (.jstr s) loc).level ∈
        (["Global", "Regional", "National", "Local"] : List String)) ∧
    (∀ (g : String → String → Option String → Option Nat) (lv loc : JVal),
      (processGeographicAnalysis g lv loc).level ∉
        (["National", "Regional", "Local"] : List String) →
      (processGeographicAnalysis g lv loc).locationIds = []) ∧
    (∀ (g : String → String → Option String → Option Nat) (lv loc : JVal),
      ((processGeographicAnalysis g lv loc).locationIds).length =
        ((processGeographicAnalysis g lv loc).locationNames).length) := by
  refine ⟨?_, ?_, ?_, ?_⟩
  · intro g lv loc h
    rcases h with h | h <;> simp [processGeographicAnalysis, h]
  · intro g s loc hloc hmem
    have hs : s ≠ "" := by
      intro hs
      subst hs
      revert hmem
      decide
    have htr : (JVal.jstr s).truthy = true := by
      simp [JVal.truthy, hs]
    have hguard : ¬ (¬ (JVal.jstr s).truthy ∨ ¬ loc.truthy) := by
      simp [htr, hloc]
    have hlevel : (processGeographicAnalysis g (.jstr s) loc).level =
        standardizeImpactLevel (pyStrip s) := by
      unfold processGeographicAnalysis
      rw [if_neg hguard]
      show geoLevelOf (.jstr s) = _
      simp [geoLevelOf, JVal.truthy, hs, pyStr]
    rw [hlevel]
    simp only [List.mem_cons, List.not_mem_nil, or_false] at hmem
    rcases hmem with h | h | h | h <;> simp [standardizeImpactLevel, h]
  · intro g lv loc hlv
    by_cases hguard : ¬ lv.truthy ∨ ¬ loc.truthy
    · unfold processGeographicAnalysis
      rw [if_pos hguard]
    · have hlevel : (processGeographicAnalysis g lv loc).level = geoLevelOf lv := by
        unfold processGeographicAnalysis
        rw [if_neg hguard]
      rw [hlevel] at hlv
      have hnone : impactLevelToDbLevel (geoLevelOf lv) = none := by
        generalize geoLevelOf lv = z at hlv
        unfold impactLevelToDbLevel
        split
        · exact absurd (by simp_all) hlv
        · exact absurd (by simp_all) hlv
        · exact absurd (by simp_all) hlv
        · rfl
      have hfix : ∀ (acc : List Nat × List String) (x : String),
          geoStep g (geoLevelOf lv) acc x = acc := by
        intro acc x
        unfold geoStep
        rw [hnone]
        split_ifs <;> rfl
      unfold processGeographicAnalysis
      rw [if_neg hguard]
      show ((geoNamesOf loc).foldl (geoStep g (geoLevelOf lv)) ([], [])).1 = []
      rw [foldl_fixed _ ([], []) _ (fun acc x _ => hfix acc x)]
  · intro g lv loc
    by_cases hguard : ¬ lv.truthy ∨ ¬ loc.truthy
    · unfold processGeographicAnalysis
      rw [if_pos hguard]
      rfl
    · have hstep : ∀ (acc : List Nat × List String) (x : String),
          acc.1.length = acc.2.length →
          (geoStep g (geoLevelOf lv) acc x).1.length =
            (geoStep g (geoLevelOf lv) acc x).2.length := by
        intro acc x hacc
        unfold geoStep
        split_ifs
        · split
          · split
            · simp [hacc]
            · exact hacc
          · exact hacc
        · exact hacc
      unfold processGeographicAnalysis
      rw [if_neg hguard]
      show ((geoNamesOf loc).foldl (geoStep g (geoLevelOf lv)) ([], [])).1.length =
        ((geoNamesOf loc).foldl (geoStep g (geoLevelOf lv)) ([], [])).2.length
      exact foldl_preserve (fun acc : List Nat × List String =>
          acc.1.length = acc.2.length) _ _ ([], []) rfl
        (fun acc x _ h => hstep acc x h)

/-- Closed witness for C6 (amended) at concrete inputs. -/
theorem C6_geo_semantics_witness :
    processGeographicAnalysis (fun _ _ _ => some 3) JVal.jnull (.jstr "France") =
      ⟨"Global", [], []⟩ ∧
    (processGeographicAnalysis (fun _ _ _ => some 3) (.jstr " national ")
        (.jstr "France")).level ∈
      (["Global", "Regional", "National", "Local"] : List String) :=
  ⟨(C6_geo_semantics).1 (fun _ _ _ => some 3) JVal.jnull (.jstr "France")
      (Or.inl rfl),
   (C6_geo_semantics).2.1 (fun _ _ _ => some 3) " national " (.jstr "France")
      rfl (by decide)⟩

end HopeShot
